import Mathlib

/-!
A shallow embedding of the file-backed product store of the
Sistema-estoque-Monitore-web repository, together with proofs about its
record-store operations (`src/lib/db`-style functions embedded from the
repository sources) and its HTTP handlers
(`src/app/api/produtos/route.ts` and `src/app/api/produtos/[id]/route.ts`).

JavaScript numbers are modelled as exact rationals extended with a NaN
point (`JNum`); none of the verified properties exercises floating-point
rounding.  Timestamps (`new Date().toISOString()`) are modelled as an
explicit `agora : String` parameter.  The persisted JSON file is modelled
by `Storage`: either a parsed list of records or a read/parse failure.
-/

namespace Monitore

/-- A JSON value as it can occur in a request body field or a stored
record field (objects/arrays never occur in the fields this development
reasons about). -/
inductive JValue
  | null
  | bool (b : Bool)
  | num (q : Rat)
  | str (s : String)
deriving DecidableEq

/-- A JavaScript number: an exact rational or NaN. -/
inductive JNum
  | nan
  | val (q : Rat)
deriving DecidableEq

/-- JavaScript truthiness of a defined JSON value. -/
def truthyV : JValue → Bool
  | .null => false
  | .bool b => b
  | .num q => decide (q ≠ 0)
  | .str s => decide (s ≠ "")

/-- JavaScript truthiness of a possibly-undefined (`none`) object field:
`undefined` and `null` are falsy, `""` and `0` and `false` are falsy. -/
def truthy : Option JValue → Bool
  | none => false
  | some v => truthyV v

/-- `a || d` on a possibly-undefined JSON value, as used by
`body.descricao || ''`. -/
def jsOr (v : Option JValue) (d : JValue) : JValue :=
  match v with
  | some jv => if truthyV jv then jv else d
  | none => d

/-- Numeric value of a decimal digit character. -/
def digitVal (c : Char) : Nat := c.toNat - 48

/-- Horner accumulation of a leading run of decimal digits; stops at the
first non-digit, like JavaScript `parseInt`. -/
def parseDigits : Nat → List Char → Nat
  | acc, [] => acc
  | acc, c :: cs => if c.isDigit then parseDigits (acc * 10 + digitVal c) cs else acc

/-- Model of JavaScript `parseInt(s)` in base 10 on the strings this store
produces: the number denoted by the longest digit prefix of `s`, or `none`
(NaN) when `s` does not start with a digit.  (Sign and leading-whitespace
handling of `parseInt` is not modelled; the ids this store assigns are
plain digit strings.) -/
def parseInt (s : String) : Option Nat :=
  match s.data with
  | [] => none
  | c :: _ => if c.isDigit then some (parseDigits 0 s.data) else none

/-- Big-endian decimal digits of `n`, fuel-guarded so that it unfolds by
structural recursion (`fuel > n` suffices). -/
def toDecimalAux : Nat → Nat → List Char
  | 0, _ => []
  | fuel + 1, n =>
    if n < 10 then [Nat.digitChar n]
    else toDecimalAux fuel (n / 10) ++ [Nat.digitChar (n % 10)]

/-- Model of JavaScript `(n).toString()` for a non-negative integer:
its decimal numeral. -/
def numToString (n : Nat) : String := ⟨toDecimalAux (n + 1) n⟩

/-- Model of JavaScript `Number()` applied to a possibly-undefined JSON
value.  `Number(undefined) = NaN`, `Number(null) = 0`, booleans are 0/1,
`Number("") = 0`, a pure digit string is its value; any other string is
modelled as NaN (no handler path verified here converts one). -/
def toNumber : Option JValue → JNum
  | none => .nan
  | some .null => .val 0
  | some (.bool b) => .val (if b then 1 else 0)
  | some (.num q) => .val q
  | some (.str s) =>
    match s.data with
    | [] => .val 0
    | c :: cs =>
      if (c :: cs).all Char.isDigit then .val (parseDigits 0 (c :: cs)) else .nan

/-- The input shape handed to the store (`ProdutoInput` =
`Omit<Produto, 'id' | 'dataEntrada' | 'dataAtualizacao'>`).  Fields hold
the runtime JSON values the handlers actually pass (TypeScript declares
`nome: string` etc., but no runtime coercion occurs in the code). -/
structure ProdutoInput where
  nome : Option JValue
  descricao : JValue
  preco : JNum
  quantidade : JNum
  sku : Option JValue
  categoria : Option JValue
  fornecedor : Option JValue
deriving DecidableEq

/-- A stored record (`Produto`). -/
structure Produto where
  id : String
  nome : Option JValue
  descricao : JValue
  preco : JNum
  quantidade : JNum
  sku : Option JValue
  categoria : Option JValue
  fornecedor : Option JValue
  dataEntrada : String
  dataAtualizacao : String
deriving DecidableEq

/-- The persisted JSON document: a parsed list of records, or a
read/parse failure (missing file, invalid JSON). -/
inductive Storage
  | ok (produtos : List Produto)
  | failure
deriving DecidableEq

/-- `getProdutos`: read and parse the whole collection; any read/parse
error yields the empty list (the `catch` branch). -/
def getProdutos : Storage → List Produto
  | .ok produtos => produtos
  | .failure => []

/-- `getProdutoPorId`: linear scan; `undefined || null` becomes `none`. -/
def getProdutoPorId (st : Storage) (id : String) : Option Produto :=
  (getProdutos st).find? (fun p => p.id = id)

/-- `Math.max(...produtos.map(p => parseInt(p.id)), 0)`: `none` models the
NaN that propagates as soon as one id fails to parse. -/
def maxIds (produtos : List Produto) : Option Nat :=
  produtos.foldr
    (fun p acc =>
      match parseInt p.id, acc with
      | some a, some b => some (max a b)
      | _, _ => none)
    (some 0)

/-- `(Math.max(...produtos.map(p => parseInt(p.id)), 0) + 1).toString()`. -/
def novoIdOf (produtos : List Produto) : String :=
  match maxIds produtos with
  | some m => numToString (m + 1)
  | none => "NaN"

/-- `criarProduto`: read the collection, compute the next id, stamp both
timestamps with `agora`, append, write the whole collection back, return
the new record. -/
def criarProduto (st : Storage) (input : ProdutoInput) (agora : String) :
    Storage × Produto :=
  let produtos := getProdutos st
  let novoId := novoIdOf produtos
  let novoProduto : Produto :=
    { id := novoId
      nome := input.nome
      descricao := input.descricao
      preco := input.preco
      quantidade := input.quantidade
      sku := input.sku
      categoria := input.categoria
      fornecedor := input.fornecedor
      dataEntrada := agora
      dataAtualizacao := agora }
  (Storage.ok (produtos ++ [novoProduto]), novoProduto)

/-- JavaScript `Array.prototype.findIndex`, with `-1` modelled as `none`. -/
def findIndex (p : α → Bool) : List α → Option Nat
  | [] => none
  | x :: xs => if p x then some 0 else (findIndex p xs).map (· + 1)

/-- `atualizarProduto`: locate the record by id; absent means `null` and
no write; otherwise merge the input over the old record
(`{...produtos[index], ...produtoInput, id, dataAtualizacao: agora}`),
store it at the same index and write the collection back.  The inner
`none` branch is unreachable (a `findIndex` hit is always in range). -/
def atualizarProduto (st : Storage) (id : String) (input : ProdutoInput)
    (agora : String) : Storage × Option Produto :=
  let produtos := getProdutos st
  match findIndex (fun p => p.id = id) produtos with
  | none => (st, none)
  | some index =>
    match produtos[index]? with
    | none => (st, none)
    | some antigo =>
      let produtoAtualizado : Produto :=
        { antigo with
          nome := input.nome
          descricao := input.descricao
          preco := input.preco
          quantidade := input.quantidade
          sku := input.sku
          categoria := input.categoria
          fornecedor := input.fornecedor
          id := id
          dataAtualizacao := agora }
      (Storage.ok (produtos.set index produtoAtualizado), some produtoAtualizado)

/-- `excluirProduto`: filter the collection; unchanged length means
nothing removed (`false`, no write); otherwise write the filtered
collection back and return `true`. -/
def excluirProduto (st : Storage) (id : String) : Storage × Bool :=
  let produtos := getProdutos st
  let novosProdutos := produtos.filter (fun p => p.id ≠ id)
  if novosProdutos.length = produtos.length then
    (st, false)
  else
    (Storage.ok novosProdutos, true)

/-- A parsed JSON request body for POST/PUT; `none` models an absent
(`undefined`) field. -/
structure Body where
  nome : Option JValue
  descricao : Option JValue
  preco : Option JValue
  quantidade : Option JValue
  sku : Option JValue
  categoria : Option JValue
  fornecedor : Option JValue
deriving DecidableEq

/-- The JSON payload of a handler response. -/
inductive RespBody
  | record (p : Produto)
  | records (l : List Produto)
  | err (msg : String)
  | success
deriving DecidableEq

/-- An HTTP response: status code plus JSON payload. -/
structure Response where
  status : Nat
  body : RespBody
deriving DecidableEq

/-- The validation guard shared by POST and PUT:
`!body.nome || body.preco === undefined || body.quantidade === undefined`. -/
def bodyInvalid (body : Body) : Bool :=
  !(truthy body.nome) || body.preco.isNone || body.quantidade.isNone

/-- The `produtoInput` object both handlers build after validation. -/
def mkProdutoInput (body : Body) : ProdutoInput :=
  { nome := body.nome
    descricao := jsOr body.descricao (JValue.str "")
    preco := toNumber body.preco
    quantidade := toNumber body.quantidade
    sku := body.sku
    categoria := body.categoria
    fornecedor := body.fornecedor }

/-- The shared 400 error payload. -/
def dadosIncompletos : Response :=
  ⟨400, .err "Dados incompletos. Nome, preço e quantidade são obrigatórios."⟩

/-- `GET /api/produtos`: list the collection (the model's `getProdutos`
never throws, so the 500 branch is dead). -/
def GET_produtos (st : Storage) : Storage × Response :=
  (st, ⟨200, .records (getProdutos st)⟩)

/-- `POST /api/produtos`: validate, then create. -/
def POST (st : Storage) (body : Body) (agora : String) : Storage × Response :=
  if bodyInvalid body then
    (st, dadosIncompletos)
  else
    let res := criarProduto st (mkProdutoInput body) agora
    (res.1, ⟨201, .record res.2⟩)

/-- `GET /api/produtos/[id]`: look up one record. -/
def GET_produto (st : Storage) (id : String) : Storage × Response :=
  match getProdutoPorId st id with
  | none => (st, ⟨404, .err "Produto não encontrado"⟩)
  | some p => (st, ⟨200, .record p⟩)

/-- `PUT /api/produtos/[id]`: validate, then update; `null` maps to 404. -/
def PUT (st : Storage) (id : String) (body : Body) (agora : String) :
    Storage × Response :=
  if bodyInvalid body then
    (st, dadosIncompletos)
  else
    let res := atualizarProduto st id (mkProdutoInput body) agora
    match res.2 with
    | none => (res.1, ⟨404, .err "Produto não encontrado"⟩)
    | some p => (res.1, ⟨200, .record p⟩)

/-- `DELETE /api/produtos/[id]`: `false` maps to 404. -/
def DELETE (st : Storage) (id : String) : Storage × Response :=
  let res := excluirProduto st id
  if res.2 then (res.1, ⟨200, .success⟩)
  else (res.1, ⟨404, .err "Produto não encontrado"⟩)

/-- One store-level mutation, for reasoning about operation sequences. -/
inductive Op
  | create (input : ProdutoInput) (agora : String)
  | update (id : String) (input : ProdutoInput) (agora : String)
  | delete (id : String)

/-- The storage state after one operation. -/
def applyOp (st : Storage) : Op → Storage
  | .create input agora => (criarProduto st input agora).1
  | .update id input agora => (atualizarProduto st id input agora).1
  | .delete id => (excluirProduto st id).1

/-- The storage state after a sequence of operations. -/
def runOps (st : Storage) : List Op → Storage
  | [] => st
  | op :: ops => runOps (applyOp st op) ops

/-- The ids assigned (returned) by `criarProduto` along a trace, in
order. -/
def assignedIds (st : Storage) : List Op → List String
  | [] => []
  | op :: ops =>
    match op with
    | .create input agora =>
      (criarProduto st input agora).2.id :: assignedIds (applyOp st op) ops
    | _ => assignedIds (applyOp st op) ops

/-! ### Concrete inputs used by witnesses and counterexamples -/

/-- A valid creation input. -/
def input0 : ProdutoInput :=
  { nome := some (.str "Widget")
    descricao := .str ""
    preco := .val 1
    quantidade := .val 1
    sku := none
    categoria := none
    fornecedor := none }

/-- Create two records (they get ids "1" and "2"), then delete id "2". -/
def ops0 : List Op := [Op.create input0 "t1", Op.create input0 "t2", Op.delete "2"]

/-- A stored record with id "1". -/
def produto1 : Produto :=
  { id := "1"
    nome := some (.str "Widget")
    descricao := .str ""
    preco := .val 1
    quantidade := .val 1
    sku := none
    categoria := none
    fornecedor := none
    dataEntrada := "t0"
    dataAtualizacao := "t0" }

/-- The spec scenario body: `{name:"Widget", price:9.5, quantity:3}`. -/
def widgetBody : Body :=
  { nome := some (.str "Widget")
    descricao := none
    preco := some (.num (19 / 2))
    quantidade := some (.num 3)
    sku := none
    categoria := none
    fornecedor := none }

/-- A body whose three required fields are all present but whose name is
the empty string (falsy). -/
def bodyEmptyName : Body :=
  { nome := some (.str "")
    descricao := none
    preco := some (.num 1)
    quantidade := some (.num 1)
    sku := none
    categoria := none
    fornecedor := none }

/-- A body missing the `preco` field. -/
def bodyMissingPreco : Body :=
  { nome := some (.str "Widget")
    descricao := none
    preco := none
    quantidade := some (.num 1)
    sku := none
    categoria := none
    fornecedor := none }

/-- A body whose `preco` is JSON `null` (present, but not a number). -/
def bodyNullPreco : Body :=
  { nome := some (.str "Widget")
    descricao := none
    preco := some .null
    quantidade := some (.num 2)
    sku := none
    categoria := none
    fornecedor := none }

/-- A body whose `quantidade` is JSON `null`. -/
def bodyNullQuant : Body :=
  { nome := some (.str "Widget")
    descricao := none
    preco := some (.num 2)
    quantidade := some .null
    sku := none
    categoria := none
    fornecedor := none }

/-! ### Decimal printing and parsing -/

theorem digitChar_isDigit : ∀ n < 10, (Nat.digitChar n).isDigit = true := by decide

theorem digitVal_digitChar : ∀ n < 10, digitVal (Nat.digitChar n) = n := by decide

theorem toDecimalAux_ne_nil : ∀ fuel n, n < fuel → toDecimalAux fuel n ≠ [] := by
  intro fuel n h
  match fuel with
  | 0 => exact absurd h (Nat.not_lt_zero n)
  | fuel + 1 =>
    unfold toDecimalAux
    by_cases h10 : n < 10
    · simp [h10]
    · simp [h10]

theorem div10_lt_fuel {fuel n : Nat} (hn : n < fuel + 1) (h10 : ¬ n < 10) :
    n / 10 < fuel :=
  lt_of_lt_of_le (Nat.div_lt_self (by omega) (by omega)) (by omega)

theorem toDecimalAux_digits : ∀ fuel n, n < fuel →
    ∀ c ∈ toDecimalAux fuel n, c.isDigit = true := by
  intro fuel
  induction fuel with
  | zero => intro n h; exact absurd h (Nat.not_lt_zero n)
  | succ fuel ih =>
    intro n hn c hc
    unfold toDecimalAux at hc
    by_cases h10 : n < 10
    · simp [h10] at hc
      exact hc ▸ digitChar_isDigit n h10
    · simp [h10, List.mem_append] at hc
      rcases hc with hc | hc
      · exact ih (n / 10) (div10_lt_fuel hn h10) c hc
      · exact hc ▸ digitChar_isDigit (n % 10) (Nat.mod_lt n (by omega))

theorem parseDigits_append (l2 : List Char) :
    ∀ (l1 : List Char) (acc : Nat), (∀ c ∈ l1, c.isDigit = true) →
      parseDigits acc (l1 ++ l2) = parseDigits (parseDigits acc l1) l2 := by
  intro l1
  induction l1 with
  | nil => intro acc _; rfl
  | cons c cs ih =>
    intro acc h
    have hc : c.isDigit = true := h c (List.mem_cons_self c cs)
    simp only [List.cons_append, parseDigits, hc, if_true]
    exact ih _ (fun x hx => h x (List.mem_cons_of_mem c hx))

theorem parseDigits_toDecimalAux : ∀ fuel n acc, n < fuel →
    parseDigits acc (toDecimalAux fuel n) =
      acc * 10 ^ (toDecimalAux fuel n).length + n := by
  intro fuel
  induction fuel with
  | zero => intro n acc h; exact absurd h (Nat.not_lt_zero n)
  | succ fuel ih =>
    intro n acc hn
    by_cases h10 : n < 10
    · have hd : (Nat.digitChar n).isDigit = true := digitChar_isDigit n h10
      have hv : digitVal (Nat.digitChar n) = n := digitVal_digitChar n h10
      unfold toDecimalAux
      simp only [h10, if_true, parseDigits, hd, hv, List.length_singleton, pow_one]
    · have hrec : n / 10 < fuel := div10_lt_fuel hn h10
      have hdigits : ∀ c ∈ toDecimalAux fuel (n / 10), c.isDigit = true :=
        toDecimalAux_digits fuel (n / 10) hrec
      have hd : (Nat.digitChar (n % 10)).isDigit = true :=
        digitChar_isDigit (n % 10) (Nat.mod_lt n (by omega))
      have hv : digitVal (Nat.digitChar (n % 10)) = n % 10 :=
        digitVal_digitChar (n % 10) (Nat.mod_lt n (by omega))
      unfold toDecimalAux
      simp only [h10, if_false]
      rw [parseDigits_append _ _ _ hdigits, ih (n / 10) acc hrec]
      simp only [parseDigits, hd, if_true, hv, List.length_append,
        List.length_singleton]
      have : 10 * (n / 10) + n % 10 = n := Nat.div_add_mod n 10
      ring_nf
      omega

theorem parseInt_numToString (n : Nat) : parseInt (numToString n) = some n := by
  rcases hl : toDecimalAux (n + 1) n with _ | ⟨c, cs⟩
  · exact absurd hl (toDecimalAux_ne_nil (n + 1) n (Nat.lt_succ_self n))
  · have hc : c.isDigit = true :=
      toDecimalAux_digits (n + 1) n (Nat.lt_succ_self n) c
        (hl ▸ List.mem_cons_self c cs)
    have hparse := parseDigits_toDecimalAux (n + 1) n 0 (Nat.lt_succ_self n)
    rw [hl] at hparse
    simp only [Nat.zero_mul, Nat.zero_add] at hparse
    show parseInt ⟨toDecimalAux (n + 1) n⟩ = some n
    rw [hl]
    simpa [parseInt, hc] using hparse

theorem numToString_inj {a b : Nat} (h : numToString a = numToString b) : a = b := by
  have ha := parseInt_numToString a
  rw [h, parseInt_numToString b] at ha
  exact (Option.some.inj ha).symm

/-! ### Bounds on the id maximum -/

theorem maxIds_le : ∀ (l : List Produto) (m : Nat), maxIds l = some m →
    ∀ p ∈ l, ∀ v, parseInt p.id = some v → v ≤ m := by
  intro l
  induction l with
  | nil => intro m _ p hp; exact absurd hp (List.not_mem_nil p)
  | cons q qs ih =>
    intro m hm p hp v hv
    rcases hq : parseInt q.id with _ | a
    · simp only [maxIds, List.foldr, hq] at hm
      exact absurd hm (by simp)
    · rcases hqs : maxIds qs with _ | b
      · simp only [maxIds, List.foldr, hq, hqs] at hm
        rw [show qs.foldr _ _ = maxIds qs from rfl, hqs] at hm
        exact absurd hm (by simp)
      · have : maxIds (q :: qs) = some (max a b) := by
          simp only [maxIds, List.foldr, hq]
          rw [show qs.foldr _ _ = maxIds qs from rfl, hqs]
        rw [this] at hm
        obtain rfl : max a b = m := Option.some.inj hm
        rcases List.mem_cons.mp hp with rfl | hp
        · rw [hq] at hv
          exact le_trans (le_of_eq (Option.some.inj hv).symm) (le_max_left a b)
        · exact le_trans (ih b hqs p hp v hv) (le_max_right a b)

theorem maxIds_isSome : ∀ l : List Produto,
    (∀ p ∈ l, ∃ v, parseInt p.id = some v) → ∃ m, maxIds l = some m := by
  intro l
  induction l with
  | nil => intro _; exact ⟨0, rfl⟩
  | cons q qs ih =>
    intro h
    obtain ⟨a, ha⟩ := h q (List.mem_cons_self q qs)
    obtain ⟨b, hb⟩ := ih (fun p hp => h p (List.mem_cons_of_mem q hp))
    refine ⟨max a b, ?_⟩
    simp only [maxIds, List.foldr, ha]
    rw [show qs.foldr _ _ = maxIds qs from rfl, hb]

/-! ### `findIndex`, `find?` and `filter` -/

theorem findIndex_eq_none {α : Type} {p : α → Bool} :
    ∀ l : List α, findIndex p l = none ↔ ∀ x ∈ l, p x = false := by
  intro l
  induction l with
  | nil => simp [findIndex]
  | cons x xs ih =>
    by_cases hx : p x
    · simp [findIndex, hx]
    · simp [findIndex, hx, ih, Option.map_eq_none']

theorem findIndex_eq_some {α : Type} {p : α → Bool} :
    ∀ (l : List α) (i : Nat), findIndex p l = some i →
      ∃ x, l[i]? = some x ∧ p x = true ∧ l.find? p = some x := by
  intro l
  induction l with
  | nil => intro i h; exact absurd h (by simp [findIndex])
  | cons y ys ih =>
    intro i h
    by_cases hy : p y
    · simp only [findIndex, hy, if_true] at h
      obtain rfl : (0 : Nat) = i := Option.some.inj h
      exact ⟨y, by simp, hy, List.find?_cons_of_pos ys hy⟩
    · rcases hys : findIndex p ys with _ | j
      · simp [findIndex, hy, hys] at h
      · simp only [findIndex, hy, if_false, hys, Option.map_some'] at h
        obtain rfl : j + 1 = i := Option.some.inj h
        obtain ⟨x, hx1, hx2, hx3⟩ := ih j hys
        exact ⟨x, by simpa using hx1, hx2,
          by rw [List.find?_cons_of_neg ys hy]; exact hx3⟩

theorem length_filter_eq_iff {α : Type} {p : α → Bool} :
    ∀ l : List α, (l.filter p).length = l.length ↔ ∀ x ∈ l, p x = true := by
  intro l
  induction l with
  | nil => simp
  | cons x xs ih =>
    by_cases hx : p x
    · rw [List.filter_cons_of_pos hx]
      simp [ih, hx]
    · have hle := List.length_filter_le p xs
      rw [List.filter_cons_of_neg hx]
      simp only [List.length_cons]
      constructor
      · intro h; omega
      · intro h
        exact absurd (h x (List.mem_cons_self x xs)) (by simp [hx])

/-! ### Claim theorems -/

/-- Claim C6 (confirmed): for every store state and id, `excluirProduto`
returns `false` exactly when filtering the collection by that id leaves
its length unchanged — equivalently, when no record carries the id — and
otherwise writes the filtered collection back and returns `true`; on
`false` the state is untouched. -/
theorem excluirProduto_spec (st : Storage) (id : String) :
    ((excluirProduto st id).2 = false ↔
      ((getProdutos st).filter (fun p => p.id ≠ id)).length =
        (getProdutos st).length) ∧
    (((getProdutos st).filter (fun p => p.id ≠ id)).length =
        (getProdutos st).length ↔ ∀ p ∈ getProdutos st, p.id ≠ id) ∧
    ((excluirProduto st id).2 = true →
      (excluirProduto st id).1 =
        Storage.ok ((getProdutos st).filter (fun p => p.id ≠ id))) ∧
    ((excluirProduto st id).2 = false → (excluirProduto st id).1 = st) := by
  have h2 : ((getProdutos st).filter (fun p => p.id ≠ id)).length =
      (getProdutos st).length ↔ ∀ p ∈ getProdutos st, p.id ≠ id := by
    rw [length_filter_eq_iff]
    simp only [decide_eq_true_eq]
  simp only [excluirProduto]
  by_cases hlen : ((getProdutos st).filter (fun p => p.id ≠ id)).length =
      (getProdutos st).length
  · rw [if_pos hlen]
    exact ⟨iff_of_true rfl hlen, h2, fun h => absurd h (by simp), fun _ => rfl⟩
  · rw [if_neg hlen]
    exact ⟨iff_of_false (by simp) hlen, h2, fun _ => rfl,
      fun h => absurd h (by simp)⟩

/-- Witness for C6 at a concrete store: deleting the only record rewrites
the state to the filtered (empty) collection. -/
theorem excluirProduto_spec_witness :
    (excluirProduto (Storage.ok [produto1]) "1").1 =
      Storage.ok ((getProdutos (Storage.ok [produto1])).filter
        (fun p => p.id ≠ "1")) :=
  (excluirProduto_spec (Storage.ok [produto1]) "1").2.2.1 (by decide)

/-- Claim C7 (confirmed): after `excluirProduto` on an id, a subsequent
`getProdutoPorId` on the same id yields `none`. -/
theorem excluir_then_getProdutoPorId (st : Storage) (id : String) :
    getProdutoPorId (excluirProduto st id).1 id = none := by
  simp only [excluirProduto]
  by_cases hlen : ((getProdutos st).filter (fun p => p.id ≠ id)).length =
      (getProdutos st).length
  · rw [if_pos hlen]
    have hall : ∀ p ∈ getProdutos st, p.id ≠ id := by
      have := (length_filter_eq_iff (getProdutos st)).mp hlen
      simpa using this
    simp only [getProdutoPorId]
    rw [List.find?_eq_none]
    intro x hx
    simp [hall x hx]
  · rw [if_neg hlen]
    simp only [getProdutoPorId, getProdutos]
    rw [List.find?_eq_none]
    intro x hx
    have hmem := List.mem_filter.mp hx
    simp only [decide_eq_true_eq] at hmem ⊢
    exact hmem.2

/-- Claim C8 (confirmed): on a read/parse failure of the persisted JSON
document, `getProdutos` returns the empty list and surfaces no error, and
`GET /api/produtos` responds 200 with the empty array. -/
theorem getProdutos_failure_spec :
    getProdutos Storage.failure = [] ∧
      GET_produtos Storage.failure =
        (Storage.failure, ⟨200, RespBody.records []⟩) :=
  ⟨rfl, rfl⟩

/-- Claim C9 (confirmed): an update or delete on an id absent from the
collection returns `none` / `false` and performs no write: the persisted
state is exactly unchanged. -/
theorem unknown_id_no_write (st : Storage) (id : String) (input : ProdutoInput)
    (agora : String) (h : ∀ p ∈ getProdutos st, p.id ≠ id) :
    atualizarProduto st id input agora = (st, none) ∧
      excluirProduto st id = (st, false) := by
  have hidx : findIndex (fun p : Produto => decide (p.id = id))
      (getProdutos st) = none := by
    rw [findIndex_eq_none]
    intro x hx
    simp [h x hx]
  constructor
  · simp only [atualizarProduto, hidx]
  · have hlen : ((getProdutos st).filter (fun p => p.id ≠ id)).length =
        (getProdutos st).length := by
      rw [length_filter_eq_iff]
      intro x hx
      simp [h x hx]
    simp only [excluirProduto]
    rw [if_pos hlen]

/-- Witness for C9: updating or deleting the unknown id "99" in a store
holding only id "1" leaves the store unchanged. -/
theorem unknown_id_no_write_witness :
    atualizarProduto (Storage.ok [produto1]) "99" input0 "t5" =
        (Storage.ok [produto1], none) ∧
      excluirProduto (Storage.ok [produto1]) "99" =
        (Storage.ok [produto1], false) :=
  unknown_id_no_write (Storage.ok [produto1]) "99" input0 "t5" (by decide)

/-- Claim C10 (confirmed): the handlers reject `preco`/`quantidade` only
when strictly `undefined`, so a body with `preco: null` or
`quantidade: null` passes validation and the record is stored with that
field equal to `Number(null) = 0`; likewise for PUT. -/
theorem null_number_passes_validation :
    ((POST (Storage.ok []) bodyNullPreco "T").2.status = 201 ∧
      ∃ p, (POST (Storage.ok []) bodyNullPreco "T").2.body =
          RespBody.record p ∧ p.preco = JNum.val 0) ∧
    ((POST (Storage.ok []) bodyNullQuant "T").2.status = 201 ∧
      ∃ p, (POST (Storage.ok []) bodyNullQuant "T").2.body =
          RespBody.record p ∧ p.quantidade = JNum.val 0) ∧
    ((PUT (Storage.ok [produto1]) "1" bodyNullPreco "T").2.status = 200 ∧
      ∃ p, (PUT (Storage.ok [produto1]) "1" bodyNullPreco "T").2.body =
          RespBody.record p ∧ p.preco = JNum.val 0) := by
  refine ⟨⟨by decide, ⟨_, rfl, by decide⟩⟩, ⟨by decide, ⟨_, rfl, by decide⟩⟩,
    ⟨by decide, ⟨_, rfl, by decide⟩⟩⟩

/-- Claim C1, counterexample: after creating ids "1" and "2" and deleting
"2", the next `criarProduto` returns id "2" again — numerically equal to,
hence not strictly greater than, the previously assigned numeric id "2"
of the removed record. -/
theorem criarProduto_not_gt_assigned :
    parseInt (criarProduto (runOps (Storage.ok []) ops0) input0 "t3").2.id =
        some 2 ∧
      "2" ∈ assignedIds (Storage.ok []) ops0 ∧
      parseInt "2" = some 2 ∧ ¬(2 : Nat) < 2 :=
  ⟨by decide, by decide, by decide, by decide⟩

/-- Claim C1 (corrected): the id `criarProduto` returns is strictly
greater than every numeric id of a record *currently* in the store (not
of every id ever assigned: deleting the maximal record frees its id). -/
theorem criarProduto_id_gt_current (produtos : List Produto)
    (input : ProdutoInput) (agora : String)
    (h : ∀ p ∈ produtos, ∃ v, parseInt p.id = some v) :
    ∃ w, parseInt ((criarProduto (Storage.ok produtos) input agora).2.id) =
        some w ∧
      ∀ p ∈ produtos, ∀ v, parseInt p.id = some v → v < w := by
  obtain ⟨m, hm⟩ := maxIds_isSome produtos h
  refine ⟨m + 1, ?_, ?_⟩
  · show parseInt (novoIdOf produtos) = some (m + 1)
    unfold novoIdOf
    rw [hm]
    exact parseInt_numToString (m + 1)
  · intro p hp v hv
    exact Nat.lt_succ_of_le (maxIds_le produtos m hm p hp v hv)

/-- Witness for the corrected C1 at a one-record store. -/
theorem criarProduto_id_gt_current_witness :
    ∃ w, parseInt ((criarProduto (Storage.ok [produto1]) input0 "t9").2.id) =
        some w ∧
      ∀ p ∈ [produto1], ∀ v, parseInt p.id = some v → v < w :=
  criarProduto_id_gt_current [produto1] input0 "t9"
    (fun p hp => ⟨1, by
      have hp1 : p = produto1 := by simpa using hp
      rw [hp1]
      decide⟩)

/-- Claim C3 (confirmed): `criarProduto` stamps both timestamps with the
same now value, appends the new record and writes the whole collection
back, and computes the id as (max of the parsed existing ids and 0) + 1,
stringified; on the empty store, the spec scenario POST yields 201 with
id "1", quantity 3 and equal timestamps. -/
theorem criarProduto_append_spec :
    (∀ (produtos : List Produto) (input : ProdutoInput) (agora : String),
      (criarProduto (Storage.ok produtos) input agora).2.dataEntrada = agora ∧
      (criarProduto (Storage.ok produtos) input agora).2.dataAtualizacao =
        agora ∧
      (criarProduto (Storage.ok produtos) input agora).1 =
        Storage.ok
          (produtos ++ [(criarProduto (Storage.ok produtos) input agora).2]) ∧
      ∀ m, maxIds produtos = some m →
        (criarProduto (Storage.ok produtos) input agora).2.id =
          numToString (m + 1)) ∧
    ((POST (Storage.ok []) widgetBody "T0").2.status = 201 ∧
      ∃ p, (POST (Storage.ok []) widgetBody "T0").2.body = RespBody.record p ∧
        p.id = "1" ∧ p.quantidade = JNum.val 3 ∧
        p.dataEntrada = p.dataAtualizacao) := by
  constructor
  · intro produtos input agora
    refine ⟨rfl, rfl, rfl, ?_⟩
    intro m hm
    show novoIdOf produtos = numToString (m + 1)
    unfold novoIdOf
    rw [hm]
  · exact ⟨by decide, ⟨_, rfl, by decide, by decide, by decide⟩⟩

/-- Witness for C3: on the empty store the computed id is
`numToString (0 + 1)`, i.e. "1". -/
theorem criarProduto_append_spec_witness :
    (criarProduto (Storage.ok []) input0 "t1").2.id = numToString (0 + 1) :=
  (criarProduto_append_spec.1 [] input0 "t1").2.2.2 0 rfl

/-- Claim C4 (confirmed): `atualizarProduto` keeps the record's id and
`dataEntrada`, sets `dataAtualizacao` to the fresh timestamp, merges the
supplied fields over the existing record, and returns `none` when the id
is absent. -/
theorem atualizarProduto_frame (st : Storage) (id : String)
    (input : ProdutoInput) (agora : String) :
    (getProdutoPorId st id = none →
      atualizarProduto st id input agora = (st, none)) ∧
    (∀ antigo, getProdutoPorId st id = some antigo →
      ∃ q, (atualizarProduto st id input agora).2 = some q ∧
        q.id = antigo.id ∧ q.dataEntrada = antigo.dataEntrada ∧
        q.dataAtualizacao = agora ∧ q.nome = input.nome ∧
        q.descricao = input.descricao ∧ q.preco = input.preco ∧
        q.quantidade = input.quantidade ∧ q.sku = input.sku ∧
        q.categoria = input.categoria ∧ q.fornecedor = input.fornecedor) := by
  rcases hidx : findIndex (fun p : Produto => decide (p.id = id))
      (getProdutos st) with _ | index
  · have hnone : (getProdutos st).find? (fun p => decide (p.id = id)) = none := by
      rw [List.find?_eq_none]
      intro x hx
      have hfalse := (findIndex_eq_none _).mp hidx x hx
      simp [hfalse]
    constructor
    · intro _
      simp only [atualizarProduto, hidx]
    · intro antigo hant
      rw [getProdutoPorId, hnone] at hant
      exact absurd hant (by simp)
  · obtain ⟨x, hx1, hx2, hx3⟩ := findIndex_eq_some _ index hidx
    have hfind : getProdutoPorId st id = some x := hx3
    constructor
    · intro hcontra
      rw [hfind] at hcontra
      exact absurd hcontra (by simp)
    · intro antigo hant
      rw [hfind] at hant
      obtain rfl : antigo = x := (Option.some.inj hant).symm
      have hxid : antigo.id = id := of_decide_eq_true hx2
      refine ⟨{ antigo with
          nome := input.nome
          descricao := input.descricao
          preco := input.preco
          quantidade := input.quantidade
          sku := input.sku
          categoria := input.categoria
          fornecedor := input.fornecedor
          id := id
          dataAtualizacao := agora }, ?_, hxid.symm, rfl, rfl, rfl, rfl, rfl,
        rfl, rfl, rfl, rfl⟩
      simp only [atualizarProduto, hidx, hx1]

/-- Witness for C4 at a one-record store. -/
theorem atualizarProduto_frame_witness :
    ∃ q, (atualizarProduto (Storage.ok [produto1]) "1" input0 "t5").2 =
        some q ∧
      q.id = produto1.id ∧ q.dataEntrada = produto1.dataEntrada ∧
      q.dataAtualizacao = "t5" ∧ q.nome = input0.nome ∧
      q.descricao = input0.descricao ∧ q.preco = input0.preco ∧
      q.quantidade = input0.quantidade ∧ q.sku = input0.sku ∧
      q.categoria = input0.categoria ∧ q.fornecedor = input0.fornecedor :=
  (atualizarProduto_frame (Storage.ok [produto1]) "1" input0 "t5").2
    produto1 (by decide)

/-- Claim C5, counterexample: a body whose three required fields are all
present but whose name is the empty string (falsy) is still rejected with
400 by both POST and PUT. -/
theorem post_rejects_present_falsy_name :
    bodyEmptyName.nome ≠ none ∧ bodyEmptyName.preco ≠ none ∧
      bodyEmptyName.quantidade ≠ none ∧
      (POST (Storage.ok []) bodyEmptyName "T").2.status = 400 ∧
      (PUT (Storage.ok [produto1]) "1" bodyEmptyName "T").2.status = 400 :=
  ⟨by decide, by decide, by decide, by decide, by decide⟩

/-- Claim C5 (corrected): a body missing `nome`, `preco` or `quantidade`
is rejected by POST and PUT with the 400 error response and the persisted
collection is left unchanged; conversely a body whose `nome` is truthy
and whose `preco` and `quantidade` fields are present (not undefined) is
not rejected with 400 — mere presence of all three fields is not enough,
since a falsy `nome` (such as the empty string) is also rejected. -/
theorem validation_400_spec (st : Storage) (id : String) (body : Body)
    (agora : String) :
    ((body.nome = none ∨ body.preco = none ∨ body.quantidade = none) →
      POST st body agora = (st, dadosIncompletos) ∧
      PUT st id body agora = (st, dadosIncompletos)) ∧
    ((truthy body.nome = true ∧ body.preco ≠ none ∧ body.quantidade ≠ none) →
      (POST st body agora).2.status = 201 ∧
      (PUT st id body agora).2.status ≠ 400) := by
  constructor
  · intro h
    have hinv : bodyInvalid body = true := by
      rcases h with h | h | h
      · simp [bodyInvalid, h, truthy]
      · simp [bodyInvalid, h]
      · simp [bodyInvalid, h]
    exact ⟨by simp only [POST, hinv, if_true], by simp only [PUT, hinv, if_true]⟩
  · rintro ⟨h1, h2, h3⟩
    have hinv : bodyInvalid body = false := by
      have hp : body.preco.isNone = false := by
        rcases hb : body.preco with _ | v
        · exact absurd hb h2
        · rfl
      have hq : body.quantidade.isNone = false := by
        rcases hb : body.quantidade with _ | v
        · exact absurd hb h3
        · rfl
      simp [bodyInvalid, h1, hp, hq]
    constructor
    · simp only [POST, hinv, Bool.false_eq_true, if_false]
    · rcases hu : (atualizarProduto st id (mkProdutoInput body) agora).2
        with _ | p
      · simp only [PUT, hinv, Bool.false_eq_true, if_false, hu]
        decide
      · simp only [PUT, hinv, Bool.false_eq_true, if_false, hu]
        decide

/-- Witness for C5: a body missing `preco` is rejected with the exact 400
response by both handlers and the store is unchanged; the spec scenario
body (all required fields present and truthy) is not rejected. -/
theorem validation_400_spec_witness :
    (POST (Storage.ok []) bodyMissingPreco "T" =
        (Storage.ok [], dadosIncompletos) ∧
      PUT (Storage.ok []) "1" bodyMissingPreco "T" =
        (Storage.ok [], dadosIncompletos)) ∧
    ((POST (Storage.ok []) widgetBody "T").2.status = 201 ∧
      (PUT (Storage.ok []) "1" widgetBody "T").2.status ≠ 400) :=
  ⟨(validation_400_spec (Storage.ok []) "1" bodyMissingPreco "T").1
      (Or.inr (Or.inl rfl)),
    (validation_400_spec (Storage.ok []) "1" widgetBody "T").2
      ⟨by decide, by decide, by decide⟩⟩

/-- Setting an index to a record with the same id leaves the id list
unchanged. -/
theorem map_id_set : ∀ (l : List Produto) (i : Nat) (u : Produto),
    (∀ x, l[i]? = some x → x.id = u.id) →
    (l.set i u).map Produto.id = l.map Produto.id := by
  intro l
  induction l with
  | nil => intro i u _; rfl
  | cons y ys ih =>
    intro i u h
    match i with
    | 0 =>
      have hy : y.id = u.id := h y (by simp)
      rw [List.set_cons_zero]
      simp only [List.map]
      rw [hy]
    | i + 1 =>
      rw [List.set_cons_succ]
      simp only [List.map]
      rw [ih i u (fun x hx => h x (by simpa using hx))]

/-- Each store operation preserves the invariant that ids are pairwise
distinct canonical decimal numerals. -/
theorem invariant_applyOp (st : Storage) (op : Op)
    (h1 : ((getProdutos st).map Produto.id).Nodup)
    (h2 : ∀ p ∈ getProdutos st, ∃ v, p.id = numToString v) :
    ((getProdutos (applyOp st op)).map Produto.id).Nodup ∧
      ∀ p ∈ getProdutos (applyOp st op), ∃ v, p.id = numToString v := by
  match op with
  | Op.create input agora =>
    have hparse : ∀ p ∈ getProdutos st, ∃ v, parseInt p.id = some v := by
      intro p hp
      obtain ⟨v, hv⟩ := h2 p hp
      exact ⟨v, by rw [hv]; exact parseInt_numToString v⟩
    obtain ⟨m, hm⟩ := maxIds_isSome _ hparse
    have hid : (criarProduto st input agora).2.id = numToString (m + 1) := by
      show novoIdOf (getProdutos st) = _
      unfold novoIdOf
      rw [hm]
    have hnotin : numToString (m + 1) ∉ (getProdutos st).map Produto.id := by
      intro hmem
      obtain ⟨p, hp, hpid⟩ := List.mem_map.mp hmem
      obtain ⟨v, hv⟩ := h2 p hp
      have hvm : v ≤ m := maxIds_le _ m hm p hp v
        (by rw [hv]; exact parseInt_numToString v)
      have hveq : v = m + 1 := numToString_inj (by rw [← hv, hpid])
      omega
    have hred : getProdutos (applyOp st (Op.create input agora)) =
        getProdutos st ++ [(criarProduto st input agora).2] := rfl
    rw [hred]
    constructor
    · rw [List.map_append]
      rw [List.nodup_append]
      refine ⟨h1, List.nodup_singleton _, ?_⟩
      intro a ha hb
      simp only [List.map, List.mem_singleton] at hb
      rw [hb, hid] at ha
      exact hnotin ha
    · intro p hp
      rcases List.mem_append.mp hp with hp | hp
      · exact h2 p hp
      · rw [List.mem_singleton] at hp
        subst hp
        exact ⟨m + 1, hid⟩
  | Op.update id input agora =>
    rcases hidx : findIndex (fun p : Produto => decide (p.id = id))
        (getProdutos st) with _ | index
    · have hred : applyOp st (Op.update id input agora) = st := by
        show (atualizarProduto st id input agora).1 = st
        simp only [atualizarProduto, hidx]
      rw [hred]
      exact ⟨h1, h2⟩
    · rcases hget : (getProdutos st)[index]? with _ | antigo
      · have hred : applyOp st (Op.update id input agora) = st := by
          show (atualizarProduto st id input agora).1 = st
          simp only [atualizarProduto, hidx, hget]
        rw [hred]
        exact ⟨h1, h2⟩
      · obtain ⟨x, hx1, hx2, hx3⟩ := findIndex_eq_some _ index hidx
        rw [hget] at hx1
        obtain rfl : antigo = x := Option.some.inj hx1
        have hant_id : antigo.id = id := of_decide_eq_true hx2
        have hant_mem : antigo ∈ getProdutos st := List.mem_of_find?_eq_some hx3
        set upd : Produto :=
          { antigo with
            nome := input.nome
            descricao := input.descricao
            preco := input.preco
            quantidade := input.quantidade
            sku := input.sku
            categoria := input.categoria
            fornecedor := input.fornecedor
            id := id
            dataAtualizacao := agora } with hupd
        have hupd_id : upd.id = antigo.id := hant_id.symm
        have hred : getProdutos (applyOp st (Op.update id input agora)) =
            (getProdutos st).set index upd := by
          show getProdutos (atualizarProduto st id input agora).1 = _
          simp only [atualizarProduto, hidx, hget]
          rfl
        have hcond : ∀ x, (getProdutos st)[index]? = some x → x.id = upd.id := by
          intro x hx
          rw [hget] at hx
          obtain rfl : x = antigo := (Option.some.inj hx).symm
          exact hupd_id.symm
        rw [hred]
        constructor
        · rw [map_id_set _ _ _ hcond]
          exact h1
        · intro p hp
          rcases List.mem_or_eq_of_mem_set hp with hp | hp
          · exact h2 p hp
          · subst hp
            obtain ⟨v, hv⟩ := h2 antigo hant_mem
            exact ⟨v, hupd_id.trans hv⟩
  | Op.delete id =>
    by_cases hlen : ((getProdutos st).filter (fun p => p.id ≠ id)).length =
        (getProdutos st).length
    · have hred : applyOp st (Op.delete id) = st := by
        show (excluirProduto st id).1 = st
        simp only [excluirProduto]
        rw [if_pos hlen]
      rw [hred]
      exact ⟨h1, h2⟩
    · have hred : getProdutos (applyOp st (Op.delete id)) =
          (getProdutos st).filter (fun p => p.id ≠ id) := by
        show getProdutos (excluirProduto st id).1 = _
        simp only [excluirProduto]
        rw [if_neg hlen]
        rfl
      rw [hred]
      constructor
      · exact h1.sublist ((List.filter_sublist _).map Produto.id)
      · intro p hp
        exact h2 p (List.mem_of_mem_filter hp)

/-- Claim C2, counterexample: id "2" is assigned to one record (created
at "t2"), the record is deleted, and a later `criarProduto` assigns the
same id "2" to a different record (created at "t4") — an id, once
assigned, can be reassigned to a different record. -/
theorem id_reassigned_to_different_record :
    (criarProduto (runOps (Storage.ok []) [Op.create input0 "t1"])
        input0 "t2").2.id =
      (criarProduto (runOps (Storage.ok []) ops0) input0 "t4").2.id ∧
    (criarProduto (runOps (Storage.ok []) [Op.create input0 "t1"])
        input0 "t2").2 ≠
      (criarProduto (runOps (Storage.ok []) ops0) input0 "t4").2 :=
  ⟨by decide, by decide⟩

/-- Claim C2 (corrected): after any sequence of create/update/delete
operations starting from the empty collection, no two records in the
collection have the same id (the "never reassigned" half of the claim
fails: a removed record's id can be assigned again). -/
theorem ids_nodup_invariant (ops : List Op) :
    ((getProdutos (runOps (Storage.ok []) ops)).map Produto.id).Nodup := by
  suffices h : ∀ (ops : List Op) (st : Storage),
      ((getProdutos st).map Produto.id).Nodup →
      (∀ p ∈ getProdutos st, ∃ v, p.id = numToString v) →
      ((getProdutos (runOps st ops)).map Produto.id).Nodup ∧
        ∀ p ∈ getProdutos (runOps st ops), ∃ v, p.id = numToString v by
    exact (h ops (Storage.ok []) List.Pairwise.nil
      (fun p hp => absurd hp (List.not_mem_nil p))).1
  intro ops
  induction ops with
  | nil => intro st hs1 hs2; exact ⟨hs1, hs2⟩
  | cons op ops ih =>
    intro st hs1 hs2
    obtain ⟨g1, g2⟩ := invariant_applyOp st op hs1 hs2
    exact ih (applyOp st op) g1 g2

end Monitore
